import Mathlib

/-!
Shallow embedding of the governance core of `hermes_app.py` (HERMES 2022
project-management assistant) and proofs about it.

Python `dict`s are modelled as insertion-ordered association lists
`List (String × α)`: lookup returns the value of the first matching key
(keys are unique in any state a Python `dict` can reach, so this agrees
with `dict` semantics), writing to an existing key updates it in place,
and inserting a fresh key appends.  Python `float` amounts are modelled
as `ℚ`.  `datetime.now()` timestamps are passed in as an explicit
`today` argument.
-/

namespace Hermes

/-- First-match lookup, the model of Python `d.get(k)` / `d[k]`. -/
def dictGet {α : Type} : List (String × α) → String → Option α
  | [], _ => none
  | (k, v) :: rest, key => if k = key then some v else dictGet rest key

/-- Model of Python `k in d`. -/
def dictHasKey {α : Type} (m : List (String × α)) (key : String) : Bool :=
  (dictGet m key).isSome

/-- Model of Python `d[k].field = ...`: rewrite the value stored at the first
occurrence of `key` with `f`; no-op when the key is absent. -/
def dictMapVal {α : Type} : List (String × α) → String → (α → α) → List (String × α)
  | [], _, _ => []
  | (k, v) :: rest, key, f =>
    if k = key then (k, f v) :: rest else (k, v) :: dictMapVal rest key f

/-- The keys of a dict in iteration order (Python `list(d.keys())`). -/
def dictKeys {α : Type} (m : List (String × α)) : List String :=
  m.map Prod.fst

@[simp] theorem dictGet_nil {α : Type} (key : String) :
    dictGet ([] : List (String × α)) key = none := rfl

@[simp] theorem dictGet_cons {α : Type} (k : String) (v : α) (rest : List (String × α))
    (key : String) :
    dictGet ((k, v) :: rest) key = if k = key then some v else dictGet rest key := rfl

@[simp] theorem dictMapVal_nil {α : Type} (key : String) (f : α → α) :
    dictMapVal ([] : List (String × α)) key f = [] := rfl

@[simp] theorem dictMapVal_cons {α : Type} (k : String) (v : α) (rest : List (String × α))
    (key : String) (f : α → α) :
    dictMapVal ((k, v) :: rest) key f =
      if k = key then (k, f v) :: rest else (k, v) :: dictMapVal rest key f := rfl

/-- `dictMapVal` rewrites exactly the looked-up value. -/
theorem dictGet_dictMapVal_self {α : Type} (m : List (String × α)) (key : String) (f : α → α) :
    dictGet (dictMapVal m key f) key = (dictGet m key).map f := by
  induction m with
  | nil => simp
  | cons hd tl ih =>
    obtain ⟨k, v⟩ := hd
    by_cases hk : k = key
    · simp [hk]
    · simp [hk, ih]

/-- `dictMapVal` leaves every other key's binding alone. -/
theorem dictGet_dictMapVal_ne {α : Type} (m : List (String × α)) (key other : String)
    (f : α → α) (h : other ≠ key) :
    dictGet (dictMapVal m key f) other = dictGet m other := by
  induction m with
  | nil => simp
  | cons hd tl ih =>
    obtain ⟨k, v⟩ := hd
    by_cases hk : k = key
    · subst hk
      simp [Ne.symm h]
    · have hstep : dictMapVal ((k, v) :: tl) key f = (k, v) :: dictMapVal tl key f := by
        simp [hk]
      rw [hstep]
      by_cases hko : k = other
      · simp [hko]
      · simp [hko, ih]

/-- `dictMapVal` preserves the key sequence. -/
theorem dictKeys_dictMapVal {α : Type} (m : List (String × α)) (key : String) (f : α → α) :
    dictKeys (dictMapVal m key f) = dictKeys m := by
  induction m with
  | nil => rfl
  | cons hd tl ih =>
    obtain ⟨k, v⟩ := hd
    by_cases hk : k = key
    · simp [dictKeys, hk]
    · simp only [dictMapVal_cons, if_neg hk, dictKeys, List.map_cons, List.cons.injEq, true_and]
      simpa [dictKeys] using ih

/-- Pointwise view of `dictMapVal`: each position keeps its key and its value is
either untouched or rewritten by `f`. -/
theorem dictMapVal_get? {α : Type} (m : List (String × α)) (key : String) (f : α → α)
    (i : Nat) (k : String) (v : α) (h : m.get? i = some (k, v)) :
    (dictMapVal m key f).get? i = some (k, v) ∨
    (dictMapVal m key f).get? i = some (k, f v) := by
  induction m generalizing i with
  | nil => simp at h
  | cons hd tl ih =>
    obtain ⟨k', v'⟩ := hd
    cases i with
    | zero =>
      simp only [List.get?_cons_zero, Option.some.injEq, Prod.mk.injEq] at h
      obtain ⟨hk1, hv1⟩ := h
      subst hk1
      subst hv1
      by_cases hk : k' = key
      · right
        simp [hk]
      · left
        simp [hk]
    | succ j =>
      simp only [List.get?_cons_succ] at h
      by_cases hk : k' = key
      · left
        simp only [dictMapVal_cons, if_pos hk, List.get?_cons_succ]
        exact h
      · rcases ih j h with h1 | h1
        · left
          simp only [dictMapVal_cons, if_neg hk, List.get?_cons_succ]
          exact h1
        · right
          simp only [dictMapVal_cons, if_neg hk, List.get?_cons_succ]
          exact h1

/-! ## Data model (the dataclasses of `hermes_app.py`) -/

structure ProjectMasterData where
  project_name : String := ""
  client : String := ""
  project_manager : String := ""
  user_representative : String := ""
  start_date : String := ""
  budget : ℚ := 0
  approach : String := "classical"
  project_size : String := "medium"
  current_phase : String := "initialization"
  language : String := "en"
deriving DecidableEq

structure PhaseResult where
  name : String
  description : String := ""
  status : String := "not_started"
  approval_required : Bool := false
  approval_date : String := ""
  responsible_role : String := ""
deriving DecidableEq

structure ProjectPhase where
  name : String
  results : List (String × PhaseResult) := []
  required_documents : List String := []
  checklist_results : List (String × Bool) := []
  status : String := "not_started"
  start_date : String := ""
  end_date : String := ""
deriving DecidableEq

structure HermesDocument where
  name : String
  responsible : String := ""
  status : String := "not_started"
  required : Bool := true
  linked_result : String := ""
  content : String := ""
deriving DecidableEq

structure HermesMilestone where
  name : String
  phase : String
  date : String := ""
  status : String := "planned"
  mandatory : Bool := true
deriving DecidableEq

structure Iteration where
  number : Nat
  name : String
  start_date : String
  end_date : String
  total_user_stories : Nat := 0
  completed_user_stories : Nat := 0
  release_candidate : Bool := false
  release_approved : Bool := false
  status : String := "planned"
  goals : List String := []
deriving DecidableEq

structure BudgetTransaction where
  date : String := ""
  category : String := ""
  amount : ℚ := 0
  description : String := ""
  type : String := "actual"
deriving DecidableEq

structure ProjectSizeConfig where
  required_documents : List String := []
  optional_documents : List String := []
  simplified_checklists : Bool := false
  mandatory_milestones : List String := []
  extra_roles : List String := []
deriving DecidableEq

/-- The `project.tailoring` snapshot dict written by tailoring. -/
structure TailoringSnapshot where
  applied_size : String
  config : ProjectSizeConfig
  language : String
deriving DecidableEq

structure HermesProject where
  master_data : ProjectMasterData := {}
  phases : List (String × ProjectPhase) := []
  documents : List (String × HermesDocument) := []
  milestones : List HermesMilestone := []
  iterations : List Iteration := []
  budget_entries : List BudgetTransaction := []
  actual_costs : ℚ := 0
  tailoring : Option TailoringSnapshot := none
  roles : List (String × String) := []
deriving DecidableEq

/-! ## Derived metrics (`ProgressCalculator`) -/

/-- The actual spend of a project: sum of the amounts of its "actual"
budget transactions (`actual = sum(t.amount for t in project.budget_entries
if t.type == "actual")`). -/
def actualSpend (project : HermesProject) : ℚ :=
  (project.budget_entries.filter (fun t => t.type = "actual")).foldl
    (fun acc t => acc + t.amount) 0

/-- `calculate_budget_usage`: the actual spend divided by the planned budget;
`0` when the planned budget is not positive (the Python guard is
`if project.master_data.budget and project.master_data.budget > 0`). -/
def calculate_budget_usage (project : HermesProject) : ℚ :=
  if 0 < project.master_data.budget then actualSpend project / project.master_data.budget
  else 0

/-! ## Phase and milestone governors -/

/-- The verdict record returned by `validate_phase_completion`. -/
structure PhaseValidation where
  results_completed : Bool
  documents_ready : Bool
  checklists_completed : Bool
  can_complete : Bool
deriving DecidableEq

/-- `validate_phase_completion(phase)`.  The Python body reads the documents
mapping from the process-wide session project
(`st.session_state.hermes_project.documents`); here that mapping is the
explicit second argument, and every caller passes the aggregate's own
documents. -/
def validate_phase_completion (phase : ProjectPhase)
    (documents : List (String × HermesDocument)) : PhaseValidation :=
  let result_ok := !(phase.results.any
    (fun r => r.2.approval_required && r.2.status ≠ "approved"))
  let docs_ok := !(phase.required_documents.any (fun doc_name =>
    match dictGet documents doc_name with
    | some doc => doc.required && doc.status ≠ "completed"
    | none => false))
  let checklist_ok := phase.checklist_results.all (fun pr => pr.2)
  { results_completed := result_ok
    documents_ready := docs_ok
    checklists_completed := checklist_ok
    can_complete := result_ok && docs_ok && checklist_ok }

/-- The verdict record returned by `validate_milestone_completion`. -/
structure MilestoneValidation where
  phase_results_complete : Bool
  required_documents_complete : Bool
  checklists_complete : Bool
  can_reach : Bool
deriving DecidableEq

/-- `validate_milestone_completion(milestone, project)`: the three sub-checks of
the owning phase, or an early return with `can_reach = false` when
`milestone.phase` does not resolve to a phase. -/
def validate_milestone_completion (milestone : HermesMilestone)
    (project : HermesProject) : MilestoneValidation :=
  match dictGet project.phases milestone.phase with
  | none =>
    { phase_results_complete := true
      required_documents_complete := true
      checklists_complete := true
      can_reach := false }
  | some phase =>
    let results_ok := !(phase.results.any
      (fun r => r.2.approval_required && r.2.status ≠ "approved"))
    let docs_ok := !(phase.required_documents.any (fun doc_name =>
      match dictGet project.documents doc_name with
      | some doc => doc.required && doc.status ≠ "completed"
      | none => false))
    let checklist_ok := phase.checklist_results.all (fun pr => pr.2)
    { phase_results_complete := results_ok
      required_documents_complete := docs_ok
      checklists_complete := checklist_ok
      can_reach := results_ok && docs_ok && checklist_ok }

/-! ## Document→result synchronization (`SyncService`) -/

/-- The body of the phase loop of `sync_document_to_result`: when the phase's
results contain the linked name, rewrite that result in place, setting its
status to completed unless it is already completed or approved. -/
def syncPhase (linked : String) (phase : ProjectPhase) : ProjectPhase :=
  if dictHasKey phase.results linked then
    { phase with
      results := dictMapVal phase.results linked (fun res =>
        if res.status = "completed" ∨ res.status = "approved" then res
        else { res with status := "completed" }) }
  else phase

/-- `sync_document_to_result(document, project)`: when the document is completed
and carries a non-empty `linked_result`, the loop visits every phase (the Python
loop has no `break`) and updates each phase whose results contain the linked
name. -/
def sync_document_to_result (document : HermesDocument) (project : HermesProject) :
    HermesProject :=
  if document.linked_result ≠ "" ∧ document.status = "completed" then
    { project with
      phases := project.phases.map (fun p => (p.1, syncPhase document.linked_result p.2)) }
  else project

/-- Convenience observer: the status of result `resName` inside phase
`phaseKey` of a project, when both resolve. -/
def result_status (project : HermesProject) (phaseKey resName : String) : Option String :=
  (dictGet project.phases phaseKey).bind
    (fun ph => (dictGet ph.results resName).map (fun r => r.status))

/-! ## Phase auto-advance -/

/-- The transition gate of `auto_advance_phase`:
`validation["can_complete"] and milestone_ready`, i.e. internal phase
completion AND an externally reached milestone scoped to the current phase. -/
def advanceGate (project : HermesProject) (phase : ProjectPhase) : Bool :=
  (validate_phase_completion phase project.documents).can_complete &&
    project.milestones.any (fun ms =>
      ms.phase = project.master_data.current_phase && ms.status = "reached")

/-- The mutation of the current phase performed by `auto_advance_phase`:
status "completed", end date stamped. -/
def completeCurrentPhase (today : String) (project : HermesProject) :
    List (String × ProjectPhase) :=
  dictMapVal project.phases project.master_data.current_phase
    (fun ph => { ph with status := "completed", end_date := today })

/-- `auto_advance_phase(project)`: complete the current phase and activate the
next one when the phase validates and a reached milestone is scoped to it.
`today` stands for `datetime.now().strftime("%Y-%m-%d")`; the Python guards
`if current not in phase_keys: return` and `if idx + 1 < len(phase_keys)`
appear here as the two `match`es. -/
def auto_advance_phase (today : String) (project : HermesProject) : HermesProject :=
  match dictGet project.phases project.master_data.current_phase with
  | none => project
  | some phase =>
    if advanceGate project phase then
      match (dictKeys project.phases).get?
          ((dictKeys project.phases).indexOf project.master_data.current_phase + 1) with
      | some next_key =>
        { project with
          master_data := { project.master_data with current_phase := next_key }
          phases := dictMapVal (completeCurrentPhase today project) next_key
            (fun ph => { ph with status := "active", start_date := today }) }
      | none => { project with phases := completeCurrentPhase today project }
    else project

/-! ## Tailoring engine: static configuration tables -/

def PROJECT_SIZE_CONFIGS : List (String × ProjectSizeConfig) :=
  [ ("small",
     { required_documents := ["Project Charter", "Acceptance Protocol"]
       optional_documents := ["Stakeholder Analysis", "Test Concept"]
       simplified_checklists := true
       mandatory_milestones := ["Project Initialization", "Project Completion"]
       extra_roles := [] }),
    ("medium",
     { required_documents := ["Project Charter", "Stakeholder Analysis",
         "Requirements Specification", "Solution Concept", "Acceptance Protocol"]
       optional_documents := ["Test Concept"]
       simplified_checklists := false
       mandatory_milestones := ["Project Initialization", "Implementation Decision",
         "Project Completion"]
       extra_roles := ["project_controller"] }),
    ("large",
     { required_documents := ["Project Charter", "Stakeholder Analysis",
         "Requirements Specification", "Solution Concept", "Test Concept",
         "Acceptance Protocol", "Project Completion Report"]
       optional_documents := []
       simplified_checklists := false
       mandatory_milestones := ["Project Initialization", "Implementation Decision",
         "Phase Release Concept", "Phase Release Realization", "Project Completion"]
       extra_roles := ["project_controller", "quality_manager"] }) ]

def DOCUMENT_NAME_MAPPING : List (String × List (String × String)) :=
  [ ("en",
     [ ("Project Charter", "Project Charter"),
       ("Stakeholder Analysis", "Stakeholder Analysis"),
       ("Requirements Specification", "Requirements Specification"),
       ("Solution Concept", "Solution Concept"),
       ("Test Concept", "Test Concept"),
       ("Acceptance Protocol", "Acceptance Protocol"),
       ("Project Completion Report", "Project Completion Report"),
       ("Release Report", "Release Report") ]),
    ("de",
     [ ("Project Charter", "Projektauftrag"),
       ("Stakeholder Analysis", "Stakeholder-Analyse"),
       ("Requirements Specification", "Anforderungsspezifikation"),
       ("Solution Concept", "Lösungskonzept"),
       ("Test Concept", "Testkonzept"),
       ("Acceptance Protocol", "Abnahmeprotokoll"),
       ("Project Completion Report", "Projektabschlussbericht"),
       ("Release Report", "Release-Bericht") ]) ]

def HERMES_CHECKLISTS : List (String × List (String × List String)) :=
  [ ("en",
     [ ("initialization_comprehensive",
        [ "Project mandate verified and documented",
          "Stakeholder analysis performed and approved",
          "Budget and resources confirmed as sufficient",
          "High-level risks identified and assessed",
          "Project approach and methodology decided" ]),
       ("initialization_simplified",
        [ "Project mandate exists",
          "Key responsible persons assigned" ]),
       ("concept_comprehensive",
        [ "Requirements validated with all user groups",
          "Solution alternatives assessed and selected",
          "Economic efficiency proven with business case",
          "Security and protection requirements considered" ]),
       ("concept_simplified",
        [ "Requirements discussed and agreed",
          "Solution direction confirmed" ]),
       ("implementation_comprehensive",
        [ "Test strategy defined and resources allocated",
          "Migration concept finalized and approved",
          "Operational readiness plan established" ]),
       ("completion_comprehensive",
        [ "Operational handover completed successfully",
          "Final acceptance signed by client",
          "Lessons learned documented and shared",
          "Financial closure procedures completed" ]),
       ("completion_simplified",
        [ "Handover to operations completed",
          "Final acceptance obtained" ]) ]),
    ("de",
     [ ("initialization_comprehensive",
        [ "Projektmandat geprüft und dokumentiert",
          "Stakeholder-Analyse durchgeführt und genehmigt",
          "Budget und Ressourcen als ausreichend bestätigt",
          "Risiken auf hoher Ebene identifiziert und bewertet",
          "Projektvorgehen und Methodik entschieden" ]),
       ("initialization_simplified",
        [ "Projektmandat vorhanden",
          "Wesentliche Verantwortliche zugeordnet" ]),
       ("concept_comprehensive",
        [ "Anforderungen mit allen Anwendergruppen validiert",
          "Lösungsalternativen bewertet und ausgewählt",
          "Wirtschaftlichkeit mit Business Case nachgewiesen",
          "Sicherheits- und Schutzanforderungen berücksichtigt" ]),
       ("concept_simplified",
        [ "Anforderungen besprochen und vereinbart",
          "Lösungsrichtung bestätigt" ]),
       ("implementation_comprehensive",
        [ "Teststrategie definiert und Ressourcen zugeordnet",
          "Migrationskonzept finalisiert und genehmigt",
          "Plan für Betriebsbereitschaft erstellt" ]),
       ("completion_comprehensive",
        [ "Operative Übergabe erfolgreich abgeschlossen",
          "Endabnahme durch Auftraggeber unterzeichnet",
          "Lessons Learned dokumentiert und geteilt",
          "Finanzielle Abschlussverfahren abgeschlossen" ]),
       ("completion_simplified",
        [ "Übergabe an den Betrieb abgeschlossen",
          "Endabnahme eingeholt" ]) ]) ]

def DEFAULT_HERMES_ROLES : List (String × List (String × String)) :=
  [ ("en",
     [ ("client", "Client"),
       ("project_manager", "Project Manager"),
       ("user_representative", "User Representative"),
       ("project_controller", "Project Controller"),
       ("quality_manager", "Quality Manager") ]),
    ("de",
     [ ("client", "Auftraggeber"),
       ("project_manager", "Projektleiter"),
       ("user_representative", "Anwendervertreter"),
       ("project_controller", "Projektcontroller"),
       ("quality_manager", "Qualitätsmanager") ]) ]

/-- `map_document_names`: translate document names from `from_lang` to the
internal keys and back through `from_lang`'s mapping.  The Python
`{v: k for k, v in ...}` comprehension lets later pairs override earlier ones,
so the reversed-pair lookup scans the pair list from the end. -/
def map_document_names (doc_names : List String) (from_lang to_lang : String) :
    List String :=
  let mapping := (dictGet DOCUMENT_NAME_MAPPING from_lang).getD []
  let reverse_pairs := (((dictGet DOCUMENT_NAME_MAPPING to_lang).getD []).map
    (fun p => (p.2, p.1))).reverse
  doc_names.map (fun doc_name =>
    let original := (dictGet reverse_pairs doc_name).getD doc_name
    (dictGet mapping original).getD original)

/-- `get_checklists(project)`: the language-specific checklist table, falling
back to English. -/
def get_checklists (project : HermesProject) : List (String × List String) :=
  (dictGet HERMES_CHECKLISTS project.master_data.language).getD
    ((dictGet HERMES_CHECKLISTS "en").getD [])

/-- `get_default_roles(project)`: the language-specific role labels, falling
back to English. -/
def get_default_roles (project : HermesProject) : List (String × String) :=
  (dictGet DEFAULT_HERMES_ROLES project.master_data.language).getD
    ((dictGet DEFAULT_HERMES_ROLES "en").getD [])

/-- Python `s.replace("_", " ").title()` for the lowercase ASCII role keys it
is applied to. -/
def pythonTitle (s : String) : String :=
  " ".intercalate (((s.replace "_" " ").splitOn " ").map String.capitalize)

/-- The checklist loop of tailoring: walk the item list in order and append
each item that is not yet a key, with value `false`. -/
def dictAddMissing (m : List (String × Bool)) : List String → List (String × Bool)
  | [] => m
  | item :: rest =>
    dictAddMissing (if dictHasKey m item then m else m ++ [(item, false)]) rest

/-- The extra-role loop of tailoring: add each missing role key with its
default label. -/
def addRoles (defaults : List (String × String)) :
    List (String × String) → List String → List (String × String)
  | roles, [] => roles
  | roles, r :: rest =>
    addRoles defaults
      (if dictHasKey roles r then roles
       else roles ++ [(r, (dictGet defaults r).getD (pythonTitle r))]) rest

/-- The size configuration used by tailoring:
`PROJECT_SIZE_CONFIGS.get(project.master_data.project_size, PROJECT_SIZE_CONFIGS["medium"])`. -/
def tailoringConfig (project : HermesProject) : ProjectSizeConfig :=
  (dictGet PROJECT_SIZE_CONFIGS project.master_data.project_size).getD
    ((dictGet PROJECT_SIZE_CONFIGS "medium").getD {})

/-- The checklist item list chosen for one phase key: the simplified variant
when the config asks for it (falling back to the comprehensive one), else the
comprehensive variant (falling back to the empty list). -/
def tailoringChecklistItems (config : ProjectSizeConfig)
    (checklists : List (String × List String)) (key : String) : List String :=
  if config.simplified_checklists then
    (dictGet checklists (key ++ "_simplified")).getD
      ((dictGet checklists (key ++ "_comprehensive")).getD [])
  else (dictGet checklists (key ++ "_comprehensive")).getD []

/-- The per-phase body of the tailoring checklist loop. -/
def tailorPhase (config : ProjectSizeConfig) (checklists : List (String × List String))
    (p : String × ProjectPhase) : String × ProjectPhase :=
  (p.1, { p.2 with checklist_results := dictAddMissing p.2.checklist_results (tailoringChecklistItems config checklists p.1) })

/-- The per-document body of the tailoring required-flag loop. -/
def tailorDocument (required_docs optional_docs : List String)
    (p : String × HermesDocument) : String × HermesDocument :=
  if required_docs.contains p.1 then (p.1, { p.2 with required := true })
  else if optional_docs.contains p.1 then (p.1, { p.2 with required := false })
  else p

/-- `apply_project_size_tailoring(project)`: look up the size configuration
(falling back to "medium"), reset document `required` flags from the
required/optional lists, append missing checklist items with value `false`,
add missing extra roles, and overwrite the tailoring snapshot. -/
def apply_project_size_tailoring (project : HermesProject) : HermesProject :=
  { project with
    documents := project.documents.map
      (tailorDocument
        (map_document_names (tailoringConfig project).required_documents "en"
          project.master_data.language)
        (map_document_names (tailoringConfig project).optional_documents "en"
          project.master_data.language))
    phases := project.phases.map
      (tailorPhase (tailoringConfig project) (get_checklists project))
    roles := addRoles (get_default_roles project) project.roles
      (tailoringConfig project).extra_roles
    tailoring := some
      { applied_size := project.master_data.project_size
        config := tailoringConfig project
        language := project.master_data.language } }

/-! ## Release governor (iterative approach) -/

/-- The phase key used for iterative work: "implementation" when that phase
exists, else "realization" (the inline
`impl_key = "implementation" if "implementation" in project.phases else "realization"`). -/
def implKey (project : HermesProject) : String :=
  if dictHasKey project.phases "implementation" then "implementation" else "realization"

/-- The verdict record returned by `validate_release_approval`. -/
structure ReleaseValidation where
  release_document_complete : Bool
  release_result_approved : Bool
  budget_healthy : Bool
  milestones_on_track : Bool
  can_approve : Bool
deriving DecidableEq

/-- The release-document block of `validate_release_approval`: the document
named `Release Report {n}` must exist and be completed. -/
def release_document_check (iteration : Iteration) (project : HermesProject) : Bool :=
  match dictGet project.documents ("Release Report " ++ toString iteration.number) with
  | some doc => decide (doc.status = "completed")
  | none => false

/-- The release-result block of `validate_release_approval`: the result named
`Release {n}` must exist inside the build phase with status "completed". -/
def release_result_check (iteration : Iteration) (project : HermesProject) : Bool :=
  match dictGet project.phases (implKey project) with
  | some ph =>
    match dictGet ph.results ("Release " ++ toString iteration.number) with
    | some r => decide (r.status = "completed")
    | none => false
  | none => false

/-- The budget block of `validate_release_approval`: usage must not
exceed 9/10 (`if usage > 0.9: res["budget_healthy"] = False`). -/
def budget_check (project : HermesProject) : Bool :=
  decide (calculate_budget_usage project ≤ 9 / 10)

/-- The milestone block of `validate_release_approval`: no mandatory milestone
scoped to the build phase may be in a non-reached state. -/
def milestones_check (project : HermesProject) : Bool :=
  !(project.milestones.any
    (fun ms => ms.mandatory && ms.phase = implKey project && ms.status ≠ "reached"))

/-- `validate_release_approval(iteration, project)`: the four checks, with
`can_approve = all(res.values())`, i.e. their conjunction. -/
def validate_release_approval (iteration : Iteration) (project : HermesProject) :
    ReleaseValidation :=
  { release_document_complete := release_document_check iteration project
    release_result_approved := release_result_check iteration project
    budget_healthy := budget_check project
    milestones_on_track := milestones_check project
    can_approve := release_document_check iteration project &&
      release_result_check iteration project &&
      budget_check project && milestones_check project }

/-- The guard of the release-result mutation inside the approval branch:
`impl_key in project.phases and release_result_name in project.phases[impl_key].results`. -/
def release_result_present (it : Iteration) (project : HermesProject) : Bool :=
  dictHasKey project.phases (implKey project) &&
    (match dictGet project.phases (implKey project) with
     | some ph => dictHasKey ph.results ("Release " ++ toString it.number)
     | none => false)

/-- The release-approval branch of `enhanced_iteration_management` (the body of
the approve button, reached only when `release_approved` is false and
`can_approve` is true): flag the iteration approved and completed, set the
release result to approved with its approval date, and append the release
milestone, already reached, dated today. -/
def approve_release (today : String) (it : Iteration) (project : HermesProject) :
    Iteration × HermesProject :=
  ({ it with release_approved := true, status := "completed" },
   { project with
     phases :=
       if release_result_present it project then
         dictMapVal project.phases (implKey project) (fun ph =>
           { ph with results := dictMapVal ph.results ("Release " ++ toString it.number) (fun r =>
               { r with status := "approved", approval_date := today }) })
       else project.phases
     milestones := project.milestones ++
       [{ name := "Release " ++ toString it.number ++ " - " ++ it.name
          phase := implKey project
          date := today
          status := "reached"
          mandatory := false }] })

/-! ## Additional dictionary lemmas -/

/-- `dictMapVal` preserves which keys are present. -/
theorem dictHasKey_dictMapVal {α : Type} (m : List (String × α)) (key x : String)
    (f : α → α) : dictHasKey (dictMapVal m key f) x = dictHasKey m x := by
  by_cases hx : x = key
  · subst hx
    unfold dictHasKey
    rw [dictGet_dictMapVal_self]
    cases dictGet m x <;> rfl
  · unfold dictHasKey
    rw [dictGet_dictMapVal_ne m key x f hx]

/-- Keys of the left list keep their bindings after an append. -/
theorem dictGet_append_left {α : Type} (m l : List (String × α)) (key : String)
    (v : α) (h : dictGet m key = some v) : dictGet (m ++ l) key = some v := by
  induction m with
  | nil => simp at h
  | cons hd tl ih =>
    obtain ⟨k, w⟩ := hd
    by_cases hk : k = key
    · simp only [dictGet_cons, if_pos hk] at h
      simp [hk, h]
    · simp only [dictGet_cons, if_neg hk] at h
      simp [hk, ih h]

/-- `dictAddMissing` only appends, and every appended value is `false`. -/
theorem dictAddMissing_append (m : List (String × Bool)) (items : List String) :
    ∃ extra, dictAddMissing m items = m ++ extra ∧ ∀ e ∈ extra, e.2 = false := by
  induction items generalizing m with
  | nil => exact ⟨[], by simp [dictAddMissing], by simp⟩
  | cons item rest ih =>
    by_cases hk : dictHasKey m item = true
    · obtain ⟨extra, he, hf⟩ := ih m
      refine ⟨extra, ?_, hf⟩
      simpa [dictAddMissing, hk] using he
    · obtain ⟨extra, he, hf⟩ := ih (m ++ [(item, false)])
      refine ⟨(item, false) :: extra, ?_, ?_⟩
      · rw [dictAddMissing, if_neg hk, he, List.append_assoc]
        rfl
      · intro e hmem
        rcases List.mem_cons.mp hmem with h1 | h1
        · rw [h1]
        · exact hf e h1

/-- Presence of a key survives `dictAddMissing`. -/
theorem dictHasKey_dictAddMissing_of_hasKey (m : List (String × Bool))
    (items : List String) (x : String) (h : dictHasKey m x = true) :
    dictHasKey (dictAddMissing m items) x = true := by
  obtain ⟨extra, he, _⟩ := dictAddMissing_append m items
  rw [he]
  unfold dictHasKey at h ⊢
  obtain ⟨v, hv⟩ := Option.isSome_iff_exists.mp h
  rw [dictGet_append_left m extra x v hv]
  rfl

/-- Every processed item is a key after `dictAddMissing`. -/
theorem dictHasKey_dictAddMissing_of_mem (m : List (String × Bool))
    (items : List String) (x : String) (h : x ∈ items) :
    dictHasKey (dictAddMissing m items) x = true := by
  induction items generalizing m with
  | nil => simp at h
  | cons item rest ih =>
    rcases List.mem_cons.mp h with h1 | h1
    · subst h1
      rw [dictAddMissing]
      by_cases hk : dictHasKey m x = true
      · rw [if_pos hk]
        exact dictHasKey_dictAddMissing_of_hasKey m rest x hk
      · rw [if_neg hk]
        refine dictHasKey_dictAddMissing_of_hasKey _ rest x ?_
        unfold dictHasKey
        have : dictGet (m ++ [(x, false)]) x = some false := by
          induction m with
          | nil => simp
          | cons hd tl ihm =>
            obtain ⟨k, w⟩ := hd
            by_cases hkx : k = x
            · exfalso
              apply hk
              unfold dictHasKey
              simp [dictGet_cons, hkx]
            · simp only [List.cons_append, dictGet_cons, if_neg hkx]
              apply ihm
              intro hc
              apply hk
              unfold dictHasKey at hc ⊢
              simp only [dictGet_cons, if_neg hkx]
              exact hc
        rw [this]
        rfl
    · rw [dictAddMissing]
      by_cases hk : dictHasKey m item = true
      · rw [if_pos hk]
        exact ih _ h1
      · rw [if_neg hk]
        exact ih _ h1

/-- `dictAddMissing` is the identity when every item is already a key. -/
theorem dictAddMissing_eq_self (m : List (String × Bool)) (items : List String)
    (h : ∀ x ∈ items, dictHasKey m x = true) : dictAddMissing m items = m := by
  induction items with
  | nil => rfl
  | cons item rest ih =>
    rw [dictAddMissing, if_pos (h item (List.mem_cons_self item rest))]
    exact ih (fun x hx => h x (List.mem_cons_of_mem item hx))

/-- Running `dictAddMissing` twice over the same items changes nothing more. -/
theorem dictAddMissing_idem (m : List (String × Bool)) (items : List String) :
    dictAddMissing (dictAddMissing m items) items = dictAddMissing m items :=
  dictAddMissing_eq_self _ _
    (fun x hx => dictHasKey_dictAddMissing_of_mem m items x hx)

/-! ## Concrete sample data used by witnesses and counterexamples -/

/-- A result that two phases both carry under the same key. -/
def dupResult : PhaseResult := { name := "Shared Result" }

def dupPhaseA : ProjectPhase :=
  { name := "Init", results := [("Shared Result", dupResult)] }

def dupPhaseB : ProjectPhase :=
  { name := "Concept", results := [("Shared Result", dupResult)] }

/-- A project in which the same result name exists in two distinct phases. -/
def dupProjTwoPhases : HermesProject :=
  { phases := [("initialization", dupPhaseA), ("concept", dupPhaseB)] }

/-- A completed document linked to the duplicated result name. -/
def dupDoc : HermesDocument :=
  { name := "Doc", status := "completed", linked_result := "Shared Result" }

/-- The same document reverted to a non-completed status. -/
def revertedDoc : HermesDocument :=
  { name := "Doc", status := "in_progress", linked_result := "Shared Result" }

/-- A phase with no results and an empty checklist, but with a required
document that is not completed. -/
def docGatedPhase : ProjectPhase :=
  { name := "Initialization", required_documents := ["Project Charter"] }

/-- A documents mapping holding one required, not-yet-completed document. -/
def docOnlyDocuments : List (String × HermesDocument) :=
  [("Project Charter", { name := "Project Charter" })]

/-- A phase with no results, no checklist entries and no required documents. -/
def bareEmptyPhase : ProjectPhase := { name := "Empty" }

/-- A project with a negative planned budget and positive actual spend. -/
def negBudgetProject : HermesProject :=
  { master_data := { budget := -5 }
    budget_entries := [{ amount := 100 }] }

/-- A project with planned budget 4 and mixed transaction types. -/
def posBudgetProject : HermesProject :=
  { master_data := { budget := 4 }
    budget_entries := [{ amount := 1 }, { amount := 2, type := "planned" }] }

/-- A milestone whose phase identifier matches no phase of `dupProjTwoPhases`. -/
def danglingMilestone : HermesMilestone := { name := "Ghost gate", phase := "ghost" }

/-! ## Claim C7 -/

/-- Claim C7 as stated is false: `validate_phase_completion` also checks the
phase's required-document list, so a phase with zero results and an empty
checklist but a required, not-completed document cannot complete. -/
theorem vacuous_phase_counterexample :
    docGatedPhase.results = [] ∧ docGatedPhase.checklist_results = [] ∧
    (validate_phase_completion docGatedPhase docOnlyDocuments).can_complete = false := by
  refine ⟨rfl, rfl, ?_⟩
  rfl

/-- Claim C7, amended: a phase with zero results, an empty checklist map and an
empty required-document list always yields `can_complete = true`. -/
theorem vacuous_phase_completion (phase : ProjectPhase)
    (documents : List (String × HermesDocument))
    (h1 : phase.results = []) (h2 : phase.checklist_results = [])
    (h3 : phase.required_documents = []) :
    (validate_phase_completion phase documents).can_complete = true := by
  unfold validate_phase_completion
  simp [h1, h2, h3]

/-- Concrete instance of the amended C7 theorem. -/
theorem vacuous_phase_completion_witness :
    (validate_phase_completion bareEmptyPhase docOnlyDocuments).can_complete = true :=
  vacuous_phase_completion bareEmptyPhase docOnlyDocuments rfl rfl rfl

/-! ## Claim C8 -/

/-- Claim C8: a milestone whose phase identifier resolves to no phase yields
`can_reach = false` with the other three sub-fields at their default `true`. -/
theorem milestone_dangling_phase (milestone : HermesMilestone)
    (project : HermesProject)
    (h : dictGet project.phases milestone.phase = none) :
    validate_milestone_completion milestone project =
      { phase_results_complete := true
        required_documents_complete := true
        checklists_complete := true
        can_reach := false } := by
  unfold validate_milestone_completion
  rw [h]

/-- Concrete instance of the C8 theorem. -/
theorem milestone_dangling_phase_witness :
    validate_milestone_completion danglingMilestone dupProjTwoPhases =
      { phase_results_complete := true
        required_documents_complete := true
        checklists_complete := true
        can_reach := false } :=
  milestone_dangling_phase danglingMilestone dupProjTwoPhases rfl

/-! ## Claim C9 -/

/-- Claim C9: `calculate_budget_usage` returns 0 whenever the planned budget is
not positive, regardless of actual spend, and otherwise divides the sum of
"actual" transaction amounts by the planned budget. -/
theorem budget_usage_spec (project : HermesProject) :
    (project.master_data.budget ≤ 0 → calculate_budget_usage project = 0) ∧
    (0 < project.master_data.budget →
      calculate_budget_usage project =
        actualSpend project / project.master_data.budget) := by
  constructor
  · intro h
    unfold calculate_budget_usage
    rw [if_neg (not_lt.mpr h)]
  · intro h
    unfold calculate_budget_usage actualSpend
    rw [if_pos h]

/-- Concrete instance of the C9 theorem: a project with planned budget `-5`
and actual spend `100` reports usage `0`, and one with planned budget `4`
reports the actual-spend ratio. -/
theorem budget_usage_spec_witness :
    calculate_budget_usage negBudgetProject = 0 ∧
    calculate_budget_usage posBudgetProject =
      actualSpend posBudgetProject / posBudgetProject.master_data.budget :=
  ⟨(budget_usage_spec negBudgetProject).1 (by decide),
   (budget_usage_spec posBudgetProject).2 (by decide)⟩

/-! ## Claim C1 -/

/-- Claim C1 as stated is false: the phase loop of `sync_document_to_result`
has no `break`, so when the linked result name exists in two phases, the later
phase's matching result is updated as well, not left unchanged. -/
theorem sync_first_match_counterexample :
    result_status dupProjTwoPhases "initialization" "Shared Result" = some "not_started" ∧
    result_status dupProjTwoPhases "concept" "Shared Result" = some "not_started" ∧
    result_status (sync_document_to_result dupDoc dupProjTwoPhases)
      "initialization" "Shared Result" = some "completed" ∧
    result_status (sync_document_to_result dupDoc dupProjTwoPhases)
      "concept" "Shared Result" = some "completed" := by
  refine ⟨rfl, rfl, rfl, rfl⟩

/-- Claim C1, amended: for a completed document with a non-empty
`linked_result`, `sync_document_to_result` updates the matching result in
**every** phase whose result mapping contains that key, in each case setting it
to completed unless it is already completed or approved. -/
theorem sync_updates_every_matching_phase (document : HermesDocument)
    (project : HermesProject) (hs : document.status = "completed")
    (hl : document.linked_result ≠ "")
    (i : Nat) (k : String) (ph : ProjectPhase)
    (hi : project.phases.get? i = some (k, ph))
    (r : PhaseResult)
    (hr : dictGet ph.results document.linked_result = some r) :
    ∃ ph', (sync_document_to_result document project).phases.get? i = some (k, ph') ∧
      dictGet ph'.results document.linked_result =
        some (if r.status = "completed" ∨ r.status = "approved" then r
              else { r with status := "completed" }) := by
  unfold sync_document_to_result
  rw [if_pos ⟨hl, hs⟩]
  refine ⟨syncPhase document.linked_result ph, ?_, ?_⟩
  · simp only [List.get?_map, hi, Option.map_some']
  · unfold syncPhase
    have hk : dictHasKey ph.results document.linked_result = true := by
      unfold dictHasKey
      rw [hr]
      rfl
    rw [if_pos hk]
    simp only [dictGet_dictMapVal_self, hr, Option.map_some']

/-- Concrete instance of the amended C1 theorem, at the second matching
phase of `dupProjTwoPhases`. -/
theorem sync_updates_every_matching_phase_witness :
    ∃ ph', (sync_document_to_result dupDoc dupProjTwoPhases).phases.get? 1 =
        some ("concept", ph') ∧
      dictGet ph'.results dupDoc.linked_result =
        some (if dupResult.status = "completed" ∨ dupResult.status = "approved"
              then dupResult else { dupResult with status := "completed" }) :=
  sync_updates_every_matching_phase dupDoc dupProjTwoPhases rfl (by decide)
    1 "concept" dupPhaseB rfl dupResult rfl

/-! ## Claim C6 -/

/-- Claim C6: `sync_document_to_result` never moves a result backward.  It is
the identity unless the document is completed with a non-empty linked result;
phase keys are preserved; each result either stays exactly as it was or moves
from `not_started`/`in_progress` (under the documented status domain) to
`completed`; results already completed or approved are covered by the
"stays exactly as it was" branch; and re-running the sync with the document
reverted to any non-completed status changes nothing. -/
theorem sync_forward_only (document : HermesDocument) (project : HermesProject)
    (hdom : ∀ p ∈ project.phases, ∀ e ∈ p.2.results,
      e.2.status ∈ (["not_started", "in_progress", "completed", "approved"] : List String)) :
    (¬ (document.status = "completed" ∧ document.linked_result ≠ "") →
      sync_document_to_result document project = project) ∧
    (∀ i k ph, project.phases.get? i = some (k, ph) →
      ∃ ph', (sync_document_to_result document project).phases.get? i = some (k, ph') ∧
        dictKeys ph'.results = dictKeys ph.results ∧
        ∀ j n r, ph.results.get? j = some (n, r) →
          ∃ r', ph'.results.get? j = some (n, r') ∧
            (r' = r ∨
              (r.status ∈ (["not_started", "in_progress"] : List String) ∧
                r' = { r with status := "completed" }))) ∧
    (∀ doc2 : HermesDocument, doc2.status ≠ "completed" →
      sync_document_to_result doc2 (sync_document_to_result document project) =
        sync_document_to_result document project) := by
  have hnoop : ∀ (d : HermesDocument) (q : HermesProject),
      ¬ (d.status = "completed" ∧ d.linked_result ≠ "") →
      sync_document_to_result d q = q := by
    intro d q hd
    unfold sync_document_to_result
    rw [if_neg (fun hc => hd ⟨hc.2, hc.1⟩)]
  refine ⟨hnoop document project, ?_, ?_⟩
  · intro i k ph hi
    by_cases hcond : document.linked_result ≠ "" ∧ document.status = "completed"
    · refine ⟨syncPhase document.linked_result ph, ?_, ?_, ?_⟩
      · unfold sync_document_to_result
        rw [if_pos hcond]
        simp only [List.get?_map, hi, Option.map_some']
      · unfold syncPhase
        by_cases hk : dictHasKey ph.results document.linked_result = true
        · rw [if_pos hk]
          exact dictKeys_dictMapVal ph.results document.linked_result _
        · rw [if_neg hk]
      · intro j n r hj
        unfold syncPhase
        by_cases hk : dictHasKey ph.results document.linked_result = true
        · rw [if_pos hk]
          rcases dictMapVal_get? ph.results document.linked_result
              (fun res => if res.status = "completed" ∨ res.status = "approved" then res
                else { res with status := "completed" }) j n r hj with h1 | h1
          · exact ⟨r, h1, Or.inl rfl⟩
          · by_cases hstat : r.status = "completed" ∨ r.status = "approved"
            · refine ⟨r, ?_, Or.inl rfl⟩
              rw [h1, if_pos hstat]
            · refine ⟨{ r with status := "completed" }, ?_, Or.inr ⟨?_, rfl⟩⟩
              · rw [h1, if_neg hstat]
              · have hmem : (k, ph) ∈ project.phases := List.get?_mem hi
                have hrmem : (n, r) ∈ ph.results := List.get?_mem hj
                have := hdom (k, ph) hmem (n, r) hrmem
                simp only [List.mem_cons, List.mem_singleton] at this ⊢
                push_neg at hstat
                tauto
        · rw [if_neg hk]
          exact ⟨r, hj, Or.inl rfl⟩
    · rw [hnoop document project (fun hc => hcond ⟨hc.2, hc.1⟩)]
      exact ⟨ph, hi, rfl, fun j n r hj => ⟨r, hj, Or.inl rfl⟩⟩
  · intro doc2 h2
    exact hnoop doc2 _ (fun hc => h2 hc.1)

/-- Concrete instance of the C6 theorem: syncing the completed document
`dupDoc` and then re-syncing with the reverted document `revertedDoc` leaves
the synced project untouched. -/
theorem sync_forward_only_witness :
    sync_document_to_result revertedDoc (sync_document_to_result dupDoc dupProjTwoPhases) =
      sync_document_to_result dupDoc dupProjTwoPhases :=
  (sync_forward_only dupDoc dupProjTwoPhases (by decide)).2.2 revertedDoc (by decide)

/-! ## Release governor sample data -/

def releaseResult : PhaseResult := { name := "Release 1", status := "completed" }

def buildPhase : ProjectPhase :=
  { name := "Implementation", results := [("Release 1", releaseResult)] }

def releaseDoc : HermesDocument := { name := "Release Report 1", status := "completed" }

def releaseIteration : Iteration :=
  { number := 1
    name := "First"
    start_date := "2026-01-01"
    end_date := "2026-01-14"
    release_candidate := true }

/-- A release-ready project: release document completed, release result
completed inside the build phase, budget usage one half, no milestones. -/
def releaseProject : HermesProject :=
  { master_data := { budget := 10 }
    phases := [("implementation", buildPhase)]
    documents := [("Release Report 1", releaseDoc)]
    budget_entries := [{ amount := 5 }] }

/-! ## Release governor helper lemmas -/

/-- Unpack `can_approve = true` into its four conjuncts. -/
theorem can_approve_unpack (it : Iteration) (project : HermesProject)
    (h : (validate_release_approval it project).can_approve = true) :
    release_document_check it project = true ∧
    release_result_check it project = true ∧
    budget_check project = true ∧
    milestones_check project = true := by
  have h' : (release_document_check it project && release_result_check it project &&
      budget_check project && milestones_check project) = true := h
  simp only [Bool.and_eq_true] at h'
  exact ⟨h'.1.1.1, h'.1.1.2, h'.1.2, h'.2⟩

/-- Invert the release-result check: when it reports `true`, the designated
result exists inside the build phase with status "completed". -/
theorem release_result_exists (it : Iteration) (project : HermesProject)
    (h : release_result_check it project = true) :
    ∃ ph r, dictGet project.phases (implKey project) = some ph ∧
      dictGet ph.results ("Release " ++ toString it.number) = some r ∧
      r.status = "completed" := by
  unfold release_result_check at h
  rcases hph : dictGet project.phases (implKey project) with _ | ph
  · rw [hph] at h
    simp at h
  · rw [hph] at h
    dsimp only at h
    rcases hr : dictGet ph.results ("Release " ++ toString it.number) with _ | r
    · rw [hr] at h
      simp at h
    · rw [hr] at h
      dsimp only at h
      simp only [decide_eq_true_eq] at h
      exact ⟨ph, r, rfl, hr, h⟩

/-- Concrete evaluation: the budget-usage ratio of `releaseProject` is 1/2. -/
theorem releaseProject_usage : calculate_budget_usage releaseProject = 1 / 2 := by
  have ha : actualSpend releaseProject = 5 := by
    simp [actualSpend, releaseProject]
  unfold calculate_budget_usage
  rw [ha]
  norm_num [releaseProject]

/-- Concrete evaluation: `releaseProject` passes every release check. -/
theorem releaseProject_can_approve :
    (validate_release_approval releaseIteration releaseProject).can_approve = true := by
  have hbudget : budget_check releaseProject = true := by
    unfold budget_check
    rw [decide_eq_true_iff, releaseProject_usage]
    norm_num
  show (release_document_check releaseIteration releaseProject &&
    release_result_check releaseIteration releaseProject &&
    budget_check releaseProject && milestones_check releaseProject) = true
  rw [hbudget]
  rfl

/-! ## Claim C2 -/

/-- Claim C2: when the build phase holds the result named for the iteration,
`release_result_approved` is true exactly when that result's status is
"completed" (so a result already "approved" fails the check), `budget_healthy`
is true exactly when the budget-usage ratio is at most 9/10, and `can_approve`
is the conjunction of the four sub-checks. -/
theorem release_validation_spec (iteration : Iteration) (project : HermesProject)
    (ph : ProjectPhase)
    (hph : dictGet project.phases (implKey project) = some ph)
    (r : PhaseResult)
    (hr : dictGet ph.results ("Release " ++ toString iteration.number) = some r) :
    ((validate_release_approval iteration project).release_result_approved = true ↔
      r.status = "completed") ∧
    (r.status = "approved" →
      (validate_release_approval iteration project).release_result_approved = false) ∧
    ((validate_release_approval iteration project).budget_healthy = true ↔
      calculate_budget_usage project ≤ 9 / 10) ∧
    (validate_release_approval iteration project).can_approve =
      ((validate_release_approval iteration project).release_document_complete &&
        (validate_release_approval iteration project).release_result_approved &&
        (validate_release_approval iteration project).budget_healthy &&
        (validate_release_approval iteration project).milestones_on_track) := by
  refine ⟨?_, ?_, ?_, rfl⟩
  · show release_result_check iteration project = true ↔ r.status = "completed"
    simp [release_result_check, hph, hr]
  · intro happ
    show release_result_check iteration project = false
    simp [release_result_check, hph, hr, happ]
  · show budget_check project = true ↔ calculate_budget_usage project ≤ 9 / 10
    simp [budget_check]

/-- Concrete instance of the C2 theorem on `releaseProject`. -/
theorem release_validation_spec_witness :
    (validate_release_approval releaseIteration releaseProject).release_result_approved
      = true ∧
    (validate_release_approval releaseIteration releaseProject).budget_healthy = true :=
  ⟨(release_validation_spec releaseIteration releaseProject buildPhase rfl
      releaseResult rfl).1.mpr rfl,
   (release_validation_spec releaseIteration releaseProject buildPhase rfl
      releaseResult rfl).2.2.1.mpr
     (by rw [releaseProject_usage]; norm_num)⟩

/-! ## Claim C5 -/

/-- Claim C5: under a true `can_approve` verdict, `approve_release` flags the
iteration approved and completed, moves the designated release result (which
was "completed") to "approved" stamping its approval date, appends exactly one
brand-new non-mandatory milestone already "reached" and dated today, and leaves
documents, iterations, every other milestone and every other result untouched. -/
theorem approve_release_spec (today : String) (it : Iteration) (project : HermesProject)
    (hca : (validate_release_approval it project).can_approve = true) :
    (approve_release today it project).1 =
      { it with release_approved := true, status := "completed" } ∧
    (∃ r : PhaseResult,
      result_status project (implKey project)
          ("Release " ++ toString it.number) = some r.status ∧
      r.status = "completed" ∧
      (∃ ph', dictGet (approve_release today it project).2.phases (implKey project)
          = some ph' ∧
        dictGet ph'.results ("Release " ++ toString it.number) =
          some { r with status := "approved", approval_date := today })) ∧
    (approve_release today it project).2.milestones =
      project.milestones ++
        [{ name := "Release " ++ toString it.number ++ " - " ++ it.name
           phase := implKey project
           date := today
           status := "reached"
           mandatory := false }] ∧
    (approve_release today it project).2.documents = project.documents ∧
    (approve_release today it project).2.iterations = project.iterations ∧
    (∀ pk rk, ¬ (pk = implKey project ∧ rk = "Release " ++ toString it.number) →
      result_status (approve_release today it project).2 pk rk =
        result_status project pk rk) := by
  obtain ⟨ph, r, hph, hr, hst⟩ :=
    release_result_exists it project (can_approve_unpack it project hca).2.1
  have hcond : release_result_present it project = true := by
    simp only [release_result_present, dictHasKey, hph, Option.isSome_some,
      Bool.true_and, hr]
  have hphases : (approve_release today it project).2.phases =
      dictMapVal project.phases (implKey project) (fun p =>
        { p with results := dictMapVal p.results ("Release " ++ toString it.number) (fun q =>
            { q with status := "approved", approval_date := today }) }) := by
    simp only [approve_release]
    rw [if_pos hcond]
  refine ⟨rfl, ⟨r, ?_, hst, ?_⟩, rfl, rfl, rfl, ?_⟩
  · unfold result_status
    rw [hph]
    simp only [Option.some_bind', hr, Option.map_some']
  · refine ⟨{ ph with results := dictMapVal ph.results ("Release " ++ toString it.number) (fun q =>
        { q with status := "approved", approval_date := today }) }, ?_, ?_⟩
    · rw [hphases, dictGet_dictMapVal_self, hph]
      rfl
    · dsimp only
      simp only [dictGet_dictMapVal_self, hr, Option.map_some']
  · intro pk rk hne
    unfold result_status
    rw [hphases]
    by_cases hpk : pk = implKey project
    · subst hpk
      rw [dictGet_dictMapVal_self, hph]
      have hrk : rk ≠ "Release " ++ toString it.number := fun hc => hne ⟨rfl, hc⟩
      simp only [Option.map_some', Option.some_bind']
      rw [dictGet_dictMapVal_ne _ _ _ _ hrk]
    · rw [dictGet_dictMapVal_ne _ _ _ _ hpk]

/-- Concrete instance of the C5 theorem on `releaseProject`. -/
theorem approve_release_spec_witness :
    (approve_release "2026-02-01" releaseIteration releaseProject).1 =
      { releaseIteration with release_approved := true, status := "completed" } ∧
    (approve_release "2026-02-01" releaseIteration releaseProject).2.milestones =
      releaseProject.milestones ++
        [{ name := "Release 1 - First"
           phase := implKey releaseProject
           date := "2026-02-01"
           status := "reached"
           mandatory := false }] :=
  ⟨(approve_release_spec "2026-02-01" releaseIteration releaseProject
      releaseProject_can_approve).1,
   (approve_release_spec "2026-02-01" releaseIteration releaseProject
      releaseProject_can_approve).2.2.1⟩

/-! ## Claim C10 -/

/-- Claim C10: once a release has been approved, validating the same iteration
again can never succeed: the approval moved the release result from
"completed" to "approved" while the check requires exactly "completed", so
`release_result_approved`, and with it `can_approve`, is false. -/
theorem release_not_approvable_twice (today : String) (it : Iteration)
    (project : HermesProject)
    (hca : (validate_release_approval it project).can_approve = true) :
    result_status (approve_release today it project).2 (implKey project)
      ("Release " ++ toString it.number) = some "approved" ∧
    (validate_release_approval (approve_release today it project).1
      (approve_release today it project).2).release_result_approved = false ∧
    (validate_release_approval (approve_release today it project).1
      (approve_release today it project).2).can_approve = false := by
  obtain ⟨ph, r, hph, hr, hst⟩ :=
    release_result_exists it project (can_approve_unpack it project hca).2.1
  have hcond : release_result_present it project = true := by
    simp only [release_result_present, dictHasKey, hph, Option.isSome_some,
      Bool.true_and, hr]
  have hphases : (approve_release today it project).2.phases =
      dictMapVal project.phases (implKey project) (fun p =>
        { p with results := dictMapVal p.results ("Release " ++ toString it.number) (fun q =>
            { q with status := "approved", approval_date := today }) }) := by
    simp only [approve_release]
    rw [if_pos hcond]
  have himpl : implKey (approve_release today it project).2 = implKey project := by
    unfold implKey
    rw [hphases, dictHasKey_dictMapVal]
  have hget : dictGet (approve_release today it project).2.phases (implKey project) =
      some { ph with results := dictMapVal ph.results ("Release " ++ toString it.number) (fun q =>
        { q with status := "approved", approval_date := today }) } := by
    rw [hphases, dictGet_dictMapVal_self, hph]
    rfl
  have hres : dictGet (dictMapVal ph.results ("Release " ++ toString it.number) (fun q =>
      { q with status := "approved", approval_date := today }))
      ("Release " ++ toString it.number) =
      some { r with status := "approved", approval_date := today } := by
    rw [dictGet_dictMapVal_self, hr]
    rfl
  have hnum : (approve_release today it project).1.number = it.number := rfl
  have hfalse : release_result_check (approve_release today it project).1
      (approve_release today it project).2 = false := by
    unfold release_result_check
    rw [hnum, himpl, hget]
    dsimp only
    rw [hres]
    dsimp only
    rfl
  refine ⟨?_, hfalse, ?_⟩
  · unfold result_status
    rw [hget]
    simp only [Option.some_bind']
    rw [hres]
    rfl
  · show (release_document_check (approve_release today it project).1
        (approve_release today it project).2 &&
      release_result_check (approve_release today it project).1
        (approve_release today it project).2 &&
      budget_check (approve_release today it project).2 &&
      milestones_check (approve_release today it project).2) = false
    rw [hfalse]
    simp

/-- Concrete instance of the C10 theorem on `releaseProject`. -/
theorem release_not_approvable_twice_witness :
    (validate_release_approval
      (approve_release "2026-02-01" releaseIteration releaseProject).1
      (approve_release "2026-02-01" releaseIteration releaseProject).2).can_approve
      = false :=
  (release_not_approvable_twice "2026-02-01" releaseIteration releaseProject
    releaseProject_can_approve).2.2

/-! ## Claim C3 -/

/-- A small project for exercising tailoring: size "small", one phase. -/
def tailorSampleProject : HermesProject :=
  { master_data := { project_size := "small" }
    phases := [("initialization", { name := "Init" })] }

/-- Claim C3: tailoring is monotonic and idempotent on checklists.  One
application only appends checklist items, each with value `false` (it never
removes a key and never rewrites an existing value, in particular never a
`true` one), and a second application for the same (unchanged) project size
leaves every phase's checklist map, hence its key set, exactly as after the
first application. -/
theorem tailoring_monotone_idempotent (project : HermesProject)
    (i : Nat) (k : String) (ph : ProjectPhase)
    (h : project.phases.get? i = some (k, ph)) :
    ∃ ph₁ ph₂ extra,
      (apply_project_size_tailoring project).phases.get? i = some (k, ph₁) ∧
      (apply_project_size_tailoring (apply_project_size_tailoring project)).phases.get? i
        = some (k, ph₂) ∧
      ph₁.checklist_results = ph.checklist_results ++ extra ∧
      (∀ e ∈ extra, e.2 = false) ∧
      ph₂.checklist_results = ph₁.checklist_results := by
  obtain ⟨extra, hext, hfalse⟩ := dictAddMissing_append ph.checklist_results
    (tailoringChecklistItems (tailoringConfig project) (get_checklists project) k)
  refine ⟨(tailorPhase (tailoringConfig project) (get_checklists project) (k, ph)).2,
    (tailorPhase (tailoringConfig project) (get_checklists project)
      (tailorPhase (tailoringConfig project) (get_checklists project) (k, ph))).2,
    extra, ?_, ?_, ?_, hfalse, ?_⟩
  · show (project.phases.map
        (tailorPhase (tailoringConfig project) (get_checklists project))).get? i = _
    rw [List.get?_map, h]
    rfl
  · have h1 : (apply_project_size_tailoring project).phases.get? i =
        some (tailorPhase (tailoringConfig project) (get_checklists project) (k, ph)) := by
      show (project.phases.map
          (tailorPhase (tailoringConfig project) (get_checklists project))).get? i = _
      rw [List.get?_map, h]
      rfl
    show ((apply_project_size_tailoring project).phases.map
        (tailorPhase (tailoringConfig (apply_project_size_tailoring project))
          (get_checklists (apply_project_size_tailoring project)))).get? i = _
    rw [List.get?_map, h1]
    rfl
  · exact hext
  · exact dictAddMissing_idem ph.checklist_results
      (tailoringChecklistItems (tailoringConfig project) (get_checklists project) k)

/-- Concrete instance of the C3 theorem on `tailorSampleProject`. -/
theorem tailoring_monotone_idempotent_witness :
    ∃ ph₁ ph₂ extra,
      (apply_project_size_tailoring tailorSampleProject).phases.get? 0 =
        some ("initialization", ph₁) ∧
      (apply_project_size_tailoring
        (apply_project_size_tailoring tailorSampleProject)).phases.get? 0 =
        some ("initialization", ph₂) ∧
      ph₁.checklist_results = ProjectPhase.checklist_results { name := "Init" } ++ extra ∧
      (∀ e ∈ extra, e.2 = false) ∧
      ph₂.checklist_results = ph₁.checklist_results :=
  tailoring_monotone_idempotent tailorSampleProject 0 "initialization"
    { name := "Init" } rfl

/-! ## Claim C4 -/

/-- A successful lookup means the key occurs in the key list. -/
theorem dictGet_mem_keys {α : Type} (m : List (String × α)) (key : String) (v : α)
    (h : dictGet m key = some v) : key ∈ dictKeys m := by
  induction m with
  | nil => simp at h
  | cons hd tl ih =>
    obtain ⟨k, w⟩ := hd
    by_cases hk : k = key
    · subst hk
      simp [dictKeys]
    · simp only [dictGet_cons, if_neg hk] at h
      simp only [dictKeys, List.map_cons, List.mem_cons]
      exact Or.inr (ih h)

/-- A phase with no results, empty checklist and no required documents, used
as the completable current phase of the auto-advance witness. -/
def advPhaseInit : ProjectPhase := { name := "Init" }

/-- A two-phase project whose current phase is completable and carries a
reached milestone, so `auto_advance_phase` fires. -/
def advProject : HermesProject :=
  { phases := [("initialization", advPhaseInit), ("concept", { name := "Concept" })]
    milestones := [{ name := "M1", phase := "initialization", status := "reached" }] }

/-- Claim C4: `auto_advance_phase` is the identity when the current phase key
is unknown or when the gate (phase validation AND a reached milestone scoped
to the current phase) fails; when the gate holds, it stamps the current phase
completed with today's end date, and, when a next phase key exists in phase
order, activates it with today's start date and moves `current_phase` to it
(at the last phase nothing else changes); all other phases and every other
collection of the project are untouched. -/
theorem auto_advance_spec (today : String) (project : HermesProject) :
    (dictGet project.phases project.master_data.current_phase = none →
      auto_advance_phase today project = project) ∧
    (∀ ph, dictGet project.phases project.master_data.current_phase = some ph →
      (advanceGate project ph = false → auto_advance_phase today project = project) ∧
      ((dictKeys project.phases).Nodup → advanceGate project ph = true →
        dictGet (auto_advance_phase today project).phases
            project.master_data.current_phase =
          some { ph with status := "completed", end_date := today } ∧
        (∀ next_key, (dictKeys project.phases).get?
              ((dictKeys project.phases).indexOf project.master_data.current_phase + 1)
              = some next_key →
          (auto_advance_phase today project).master_data =
            { project.master_data with current_phase := next_key } ∧
          dictGet (auto_advance_phase today project).phases next_key =
            (dictGet project.phases next_key).map
              (fun q => { q with status := "active", start_date := today })) ∧
        ((dictKeys project.phases).get?
              ((dictKeys project.phases).indexOf project.master_data.current_phase + 1)
              = none →
          (auto_advance_phase today project).master_data = project.master_data) ∧
        (∀ x, x ≠ project.master_data.current_phase →
          (dictKeys project.phases).get?
              ((dictKeys project.phases).indexOf project.master_data.current_phase + 1)
              ≠ some x →
          dictGet (auto_advance_phase today project).phases x =
            dictGet project.phases x) ∧
        (auto_advance_phase today project).documents = project.documents ∧
        (auto_advance_phase today project).milestones = project.milestones ∧
        (auto_advance_phase today project).iterations = project.iterations ∧
        (auto_advance_phase today project).budget_entries = project.budget_entries)) := by
  constructor
  · intro h
    unfold auto_advance_phase
    rw [h]
  · intro ph hph
    constructor
    · intro hgate
      unfold auto_advance_phase
      rw [hph]
      dsimp only
      rw [hgate]
      rfl
    · intro hnd hgate
      rcases hnext : (dictKeys project.phases).get?
          ((dictKeys project.phases).indexOf project.master_data.current_phase + 1)
        with _ | nk
      · have hauto : auto_advance_phase today project =
            { project with phases := completeCurrentPhase today project } := by
          unfold auto_advance_phase
          rw [hph]
          dsimp only
          rw [hgate, if_pos rfl, hnext]
        refine ⟨?_, ?_, ?_, ?_, ?_, ?_, ?_, ?_⟩
        · rw [hauto]
          dsimp only
          unfold completeCurrentPhase
          rw [dictGet_dictMapVal_self, hph]
          rfl
        · intro nk hk
          exact Option.noConfusion hk
        · intro _
          rw [hauto]
        · intro x hx _
          rw [hauto]
          dsimp only
          unfold completeCurrentPhase
          rw [dictGet_dictMapVal_ne _ _ _ _ hx]
        · rw [hauto]
        · rw [hauto]
        · rw [hauto]
        · rw [hauto]
      · have hmem : project.master_data.current_phase ∈ dictKeys project.phases :=
          dictGet_mem_keys _ _ ph hph
        have hcur : (dictKeys project.phases).get?
            ((dictKeys project.phases).indexOf project.master_data.current_phase) =
            some project.master_data.current_phase := List.indexOf_get? hmem
        have hlt : (dictKeys project.phases).indexOf project.master_data.current_phase <
            (dictKeys project.phases).length := List.indexOf_lt_length.mpr hmem
        have hne : nk ≠ project.master_data.current_phase := by
          intro hc
          have h2 : (dictKeys project.phases).get?
              ((dictKeys project.phases).indexOf project.master_data.current_phase) =
              (dictKeys project.phases).get?
              ((dictKeys project.phases).indexOf project.master_data.current_phase + 1) := by
            rw [hcur, hnext, hc]
          have h3 := List.get?_inj hlt hnd h2
          omega
        have hauto : auto_advance_phase today project =
            { project with
              master_data := { project.master_data with current_phase := nk }
              phases := dictMapVal (completeCurrentPhase today project) nk
                (fun q => { q with status := "active", start_date := today }) } := by
          unfold auto_advance_phase
          rw [hph]
          dsimp only
          rw [hgate, if_pos rfl, hnext]
        refine ⟨?_, ?_, ?_, ?_, ?_, ?_, ?_, ?_⟩
        · rw [hauto]
          dsimp only
          rw [dictGet_dictMapVal_ne _ _ _ _ (Ne.symm hne)]
          unfold completeCurrentPhase
          rw [dictGet_dictMapVal_self, hph]
          rfl
        · intro nk2 hk2
          injection hk2 with hk2eq
          subst hk2eq
          constructor
          · rw [hauto]
          · rw [hauto]
            dsimp only
            rw [dictGet_dictMapVal_self]
            unfold completeCurrentPhase
            rw [dictGet_dictMapVal_ne _ _ _ _ hne]
        · intro hk
          exact Option.noConfusion hk
        · intro x hx hnx
          have hxnk : x ≠ nk := fun hc => hnx (by rw [hc])
          rw [hauto]
          dsimp only
          rw [dictGet_dictMapVal_ne _ _ _ _ hxnk]
          unfold completeCurrentPhase
          rw [dictGet_dictMapVal_ne _ _ _ _ hx]
        · rw [hauto]
        · rw [hauto]
        · rw [hauto]
        · rw [hauto]

/-- Concrete instance of the C4 theorem on `advProject`: the gate holds, the
current phase is stamped completed and the next phase becomes current. -/
theorem auto_advance_spec_witness :
    dictGet (auto_advance_phase "2026-03-01" advProject).phases "initialization" =
      some { advPhaseInit with status := "completed", end_date := "2026-03-01" } ∧
    (auto_advance_phase "2026-03-01" advProject).master_data =
      { advProject.master_data with current_phase := "concept" } :=
  ⟨(((auto_advance_spec "2026-03-01" advProject).2 advPhaseInit rfl).2
      (by decide) (by decide)).1,
   ((((auto_advance_spec "2026-03-01" advProject).2 advPhaseInit rfl).2
      (by decide) (by decide)).2.1 "concept" rfl).1⟩

end Hermes
